import Mathlib

/-!
Shallow embedding of the llm-chess-coach blunder-detection pipeline.

The sources embedded here are:
* `src/coach.py` — `get_centipawns`, `get_llm_analysis` (response handling),
  `analyze_game` (the move walk);
* `src/core/analysis.py` — `StockfishAnalyzer.get_centipawns`,
  `LLMCoach.get_analysis`, `GameProcessor.analyze_game` / `_handle_blunder`;
* `src/database.py` — `Database.save_blunder` (signature), the `blunders`
  schema and `get_blunders_by_pgn_path` (query contract).

External engine/LLM calls are modelled as per-half-move input data: the walk
receives, for each half-move, the two raw engine evaluations, the terminal
flag of the post-move position and the transport outcome of the advisor call.
Python-level string operations (`str.strip`, `str.split`, `in`, `str.lower`)
and the fragment of `json.loads` exercised by the adapter are modelled
explicitly below, on `List Char`.
-/

/-- A raw engine evaluation dictionary, with a `type` field ("cp", "mate",
...) and an integer `value` (the `stockfish.get_evaluation()` result); the
`type` field is an arbitrary
string so that unknown/unsupported kinds are representable. -/
structure EvalDict where
  type : String
  value : Int
deriving DecidableEq

/-- Model of `coach.get_centipawns` (src/coach.py:39-54): centipawn scores pass
through, mate scores become ±30000 with the sign of the raw value, anything
else becomes 0. -/
def get_centipawns (evaluation : EvalDict) : Int :=
  if evaluation.type = "cp" then evaluation.value
  else if evaluation.type = "mate" then
    if evaluation.value < 0 then -30000 else 30000
  else 0

namespace StockfishAnalyzer

/-- Model of `StockfishAnalyzer.get_centipawns` (src/core/analysis.py:67-88): same as
`coach.get_centipawns` except that an unknown evaluation type yields Python
`None`, modelled as `Option.none`. -/
def get_centipawns (evaluation : EvalDict) : Option Int :=
  if evaluation.type = "cp" then some evaluation.value
  else if evaluation.type = "mate" then
    some (if evaluation.value < 0 then -30000 else 30000)
  else none

end StockfishAnalyzer

/-! ## Python string operations (modelled on `List Char`) -/

/-- The backtick character (written via its code point to keep the source
free of stray backticks). -/
def btick : Char := Char.ofNat 96

/-- Python `str.strip()` whitespace set: space, tab, LF, CR, VT, FF. -/
def pySpace (c : Char) : Bool :=
  c = ' ' || c = '\t' || c = '\n' || c = '\r' || c = '\x0b' || c = '\x0c'

/-- Python `str.strip()` on a character list. -/
def pyStripList (xs : List Char) : List Char :=
  ((xs.dropWhile pySpace).reverse.dropWhile pySpace).reverse

/-- Python substring containment `pat in s` (for non-empty `pat`): some
suffix of `s` starts with `pat`. -/
def containsSub (pat : List Char) : List Char → Bool
  | [] => pat.isEmpty
  | c :: rest => pat.isPrefixOf (c :: rest) || containsSub pat rest

/-- Worker for Python `str.split(pat)` with non-empty `pat`: scan left to
right, cut at each non-overlapping occurrence of `pat`. `fuel` only bounds
the recursion; `fuel ≥ length of the input` makes it exact. -/
def pySplitGo (pat : List Char) : Nat → List Char → List Char → List (List Char)
  | 0, acc, _ => [acc]
  | _ + 1, acc, [] => [acc]
  | fuel + 1, acc, c :: rest =>
    if pat.isPrefixOf (c :: rest) then
      acc :: pySplitGo pat fuel [] (rest.drop (pat.length - 1))
    else
      pySplitGo pat fuel (acc ++ [c]) rest

/-- Python `s.split(pat)` for non-empty `pat`. -/
def pySplit (pat s : List Char) : List (List Char) :=
  pySplitGo pat s.length [] s

/-- The characters of the opening code-fence marker checked by the adapter. -/
def fenceJson : List Char := "```json".data

/-- The characters of the plain code-fence marker. -/
def fenceMarker : List Char := "```".data

/-- The content-cleaning step of `get_llm_analysis` / `LLMCoach.get_analysis`
(src/coach.py:117-120, src/core/analysis.py:179-182):
if the marker is present, take `content.split(fence-json)[1].split(fence)[0]`,
then strip surrounding whitespace. -/
def cleanContent (content : List Char) : List Char :=
  let content' :=
    if containsSub fenceJson content then
      ((pySplit fenceMarker ((pySplit fenceJson content).getD 1 [])).headD [])
    else content
  pyStripList content'

/-! ## The fragment of `json.loads` exercised by the Advisor adapter

The adapter parses LLM responses whose expected shape (fixed by the system
prompt) is a flat JSON object with string keys and scalar values. The model
below implements `json.loads` on that fragment: top-level scalars, flat
arrays and flat objects of scalars, strict about trailing input, control
characters, leading zeros and trailing commas, exactly as CPython is.
Nested containers, floating-point literals and `\uXXXX` escapes are outside
the modelled fragment (such inputs are not used in any statement below;
theorems quantifying over responses treat the parser as an unspecified function
of the cleaned content). -/

/-- JSON whitespace accepted by CPython `json.loads`. -/
def jsonWs (c : Char) : Bool := c = ' ' || c = '\t' || c = '\n' || c = '\r'

/-- The left-brace / right-brace characters (written via code points so that
no literal brace occurs inside a character literal). -/
def lbrace : Char := Char.ofNat 123

/-- Right brace. -/
def rbrace : Char := Char.ofNat 125

/-- JSON string escapes handled by the model (`\uXXXX` is out of fragment). -/
def escChar (e : Char) : Option Char :=
  if e = '"' then some '"'
  else if e = '\\' then some '\\'
  else if e = '/' then some '/'
  else if e = 'n' then some '\n'
  else if e = 't' then some '\t'
  else if e = 'r' then some '\r'
  else if e = 'b' then some (Char.ofNat 8)
  else if e = 'f' then some (Char.ofNat 12)
  else none

/-- Parse the body of a JSON string after the opening quote; returns the
decoded characters and the input after the closing quote. Unterminated
strings, raw control characters and unknown escapes fail, as in CPython. -/
def parseStringBody : Nat → List Char → Option (List Char × List Char)
  | 0, _ => none
  | _ + 1, [] => none
  | fuel + 1, c :: rest =>
    if c = '"' then some ([], rest)
    else if c = '\\' then
      match rest with
      | [] => none
      | e :: rest' =>
        match escChar e with
        | none => none
        | some ec =>
          match parseStringBody fuel rest' with
          | none => none
          | some (s, rem) => some (ec :: s, rem)
    else if c.toNat < 32 then none
    else
      match parseStringBody fuel rest with
      | none => none
      | some (s, rem) => some (c :: s, rem)

/-- Decimal digits to a natural number. -/
def digitsToNat (ds : List Char) : Nat :=
  ds.foldl (fun a c => a * 10 + (c.toNat - 48)) 0

/-- Parse a JSON integer literal (optional minus, no leading zeros; a
following `.`/`e`/`E` would start a float literal, which is out of the
modelled fragment and fails). -/
def parseIntToken (xs : List Char) : Option (Int × List Char) :=
  let p := match xs with
    | c :: rest => if c = '-' then (true, rest) else (false, xs)
    | [] => (false, xs)
  let ds := p.2.takeWhile fun c => c.isDigit
  let rem := p.2.dropWhile fun c => c.isDigit
  if ds.isEmpty then none
  else if ds.length > 1 && ds.headD '0' = '0' then none
  else
    let n : Int := if p.1 then -(digitsToNat ds : Int) else (digitsToNat ds : Int)
    match rem with
    | e :: _ => if e = '.' || e = 'e' || e = 'E' then none else some (n, rem)
    | [] => some (n, rem)

/-- A scalar JSON value (and the Python value it decodes to). -/
inductive PyScalar where
  | str : String → PyScalar
  | num : Int → PyScalar
  | bool : Bool → PyScalar
  | null : PyScalar
deriving DecidableEq

/-- A decoded Python value in the modelled fragment: a scalar, a flat list
or a flat string-keyed dict. -/
inductive PyVal where
  | scalar : PyScalar → PyVal
  | arr : List PyScalar → PyVal
  | obj : List (String × PyScalar) → PyVal
deriving DecidableEq

/-- Parse one scalar value (input already whitespace-skipped). -/
def parseScalar (xs : List Char) : Option (PyScalar × List Char) :=
  match xs with
  | [] => none
  | c :: rest =>
    if c = '"' then
      match parseStringBody (rest.length + 1) rest with
      | some (s, rem) => some (.str (String.mk s), rem)
      | none => none
    else if "true".data.isPrefixOf xs then some (.bool true, xs.drop 4)
    else if "false".data.isPrefixOf xs then some (.bool false, xs.drop 5)
    else if "null".data.isPrefixOf xs then some (.null, xs.drop 4)
    else
      match parseIntToken xs with
      | some (n, rem) => some (.num n, rem)
      | none => none

/-- Parse object members after the opening brace. `allowClose` is true only
before the first member (no trailing commas, as in CPython). -/
def parseObjRest : Nat → Bool → List Char → Option (List (String × PyScalar) × List Char)
  | 0, _, _ => none
  | fuel + 1, allowClose, xs =>
    match xs.dropWhile jsonWs with
    | [] => none
    | c :: rest =>
      if c = rbrace then if allowClose then some ([], rest) else none
      else if c = '"' then
        match parseStringBody (rest.length + 1) rest with
        | none => none
        | some (k, rem1) =>
          match rem1.dropWhile jsonWs with
          | ':' :: rem2 =>
            match parseScalar (rem2.dropWhile jsonWs) with
            | none => none
            | some (v, rem3) =>
              match rem3.dropWhile jsonWs with
              | ',' :: rem4 =>
                match parseObjRest fuel false rem4 with
                | none => none
                | some (kvs, rem5) => some ((String.mk k, v) :: kvs, rem5)
              | d :: rem4 => if d = rbrace then some ([(String.mk k, v)], rem4) else none
              | [] => none
          | _ => none
      else none

/-- Parse array elements after the opening bracket. -/
def parseArrRest : Nat → Bool → List Char → Option (List PyScalar × List Char)
  | 0, _, _ => none
  | fuel + 1, allowClose, xs =>
    match xs.dropWhile jsonWs with
    | [] => none
    | c :: rest =>
      if c = ']' then if allowClose then some ([], rest) else none
      else
        match parseScalar (c :: rest) with
        | none => none
        | some (v, rem1) =>
          match rem1.dropWhile jsonWs with
          | ',' :: rem2 =>
            match parseArrRest fuel false rem2 with
            | none => none
            | some (vs, rem3) => some (v :: vs, rem3)
          | d :: rem2 => if d = ']' then some ([v], rem2) else none
          | [] => none

/-- Model of `json.loads` on the modelled fragment: a single JSON document with
optional surrounding whitespace; anything after it fails. -/
def pyJsonLoads (s : List Char) : Option PyVal :=
  match s.dropWhile jsonWs with
  | [] => none
  | c :: rest =>
    if c = lbrace then
      match parseObjRest (rest.length + 1) true rest with
      | some (kvs, rem) =>
        if (rem.dropWhile jsonWs).isEmpty then some (.obj kvs) else none
      | none => none
    else if c = '[' then
      match parseArrRest (rest.length + 1) true rest with
      | some (vs, rem) =>
        if (rem.dropWhile jsonWs).isEmpty then some (.arr vs) else none
      | none => none
    else
      match parseScalar (c :: rest) with
      | some (v, rem) =>
        if (rem.dropWhile jsonWs).isEmpty then some (.scalar v) else none
      | none => none

/-- Python `dict.get(key, default)` for a dict built by `json.loads` from a
member list: on duplicate keys the last occurrence wins, as in CPython. -/
def pyDictGet (fields : List (String × PyScalar)) (key : String) (dflt : PyScalar) : PyScalar :=
  match fields.reverse.lookup key with
  | some v => v
  | none => dflt

/-- The Python type name of a decoded value, as it appears in CPython
error messages. -/
def pyTypeName : PyVal → String
  | .scalar (.str _) => "str"
  | .scalar (.num _) => "int"
  | .scalar (.bool _) => "bool"
  | .scalar .null => "NoneType"
  | .arr _ => "list"
  | .obj _ => "dict"

/-- The message of the `AttributeError` raised when `.get` is called on a
decoded non-dict value, prefixed by the generic handler of the adapter. -/
def attrErrorMsg (v : PyVal) : String :=
  "Error getting analysis from Ollama: '" ++ pyTypeName v ++
    "' object has no attribute 'get'"

/-- Response-content handling of `get_llm_analysis` (src/coach.py:117-134)
and `LLMCoach.get_analysis` (src/core/analysis.py:179-196), after a
successful transport call: strip fences, `json.loads`, read the three keys
with their defaults. A `JSONDecodeError` is caught by the inner handler and
falls back to `("Uncategorized", "Error", content)`; a decoded non-dict
value raises `AttributeError` at the first `.get`, which the inner
`except (json.JSONDecodeError, KeyError)` does not catch, so it reaches the
outer `except Exception` and becomes the generic error triple. -/
def parseAnalysisContent (content : List Char) : PyScalar × PyScalar × PyScalar :=
  match pyJsonLoads content with
  | some (.obj fields) =>
    (pyDictGet fields "motif" (.str "Uncategorized"),
     pyDictGet fields "severity" (.str "Unknown"),
     pyDictGet fields "explanation" (.str "No explanation provided."))
  | some v => (.str "Error", .str "Error", .str (attrErrorMsg v))
  | none => (.str "Uncategorized", .str "Error", .str (String.mk content))

/-- Model of `get_llm_analysis` / `LLMCoach.get_analysis` as a function of the
transport outcome: `Except.error e` models `ollama.chat` raising (timeout,
connection failure, any exception), `Except.ok raw` a response with content
`raw`. The function is total: the adapter never raises. -/
def get_llm_analysis (transport : Except String String) : PyScalar × PyScalar × PyScalar :=
  match transport with
  | .error e =>
    (.str "Error", .str "Error", .str ("Error getting analysis from Ollama: " ++ e))
  | .ok raw => parseAnalysisContent (cleanContent raw.data)

/-! ## The move walk (`analyze_game`, src/coach.py:136-263 and
`GameProcessor.analyze_game`, src/core/analysis.py:223-309) -/

/-- Python `str.lower()` on ASCII (the arguments used are color/side names). -/
def lowerChar (c : Char) : Char :=
  if c.toNat ≥ 65 && c.toNat ≤ 90 then Char.ofNat (c.toNat + 32) else c

/-- Python `s.lower()`. -/
def pyLower (s : String) : String := String.mk (s.data.map lowerChar)

/-- Decidable equality for transport outcomes. -/
instance : DecidableEq (Except String String) := fun a b =>
  match a, b with
  | .error x, .error y =>
    if h : x = y then .isTrue (by rw [h])
    else .isFalse (by intro hc; cases hc; exact h rfl)
  | .ok x, .ok y =>
    if h : x = y then .isTrue (by rw [h])
    else .isFalse (by intro hc; cases hc; exact h rfl)
  | .error _, .ok _ => .isFalse (by intro hc; cases hc)
  | .ok _, .error _ => .isFalse (by intro hc; cases hc)

/-- The per-half-move data the walk consumes from its collaborators: the two
raw engine evaluations (each position is queried fresh), the terminal flag
of the post-move position (`board.is_game_over()`), the notations and FEN
produced by the game record and engine, and the transport outcome of the
advisor call that would be made if this move is investigated. -/
structure HalfMove where
  evalBefore : EvalDict
  evalAfter : EvalDict
  gameOverAfter : Bool
  moveSan : String
  fenBefore : String
  bestMoveSan : String
  advisor : Except String String
deriving DecidableEq

/-- The board state threaded through the walk: whose turn it is before the
next move and `board.fullmove_number`. `python-chess` increments the
fullmove number after each Black move and flips the turn on every push. -/
structure WalkState where
  turnWhite : Bool
  fullmove : Nat
deriving DecidableEq

/-- Effect of `board.push(move)` on the threaded state. -/
def pushState (st : WalkState) : WalkState :=
  if st.turnWhite then ⟨false, st.fullmove⟩ else ⟨true, st.fullmove + 1⟩

/-- The record handed to `db.save_blunder` for a qualifying move (the
keyword arguments of the call in src/coach.py:250-261 /
src/core/analysis.py:385-396). -/
structure BlunderRecord where
  pgn_path : String
  move_number : Nat
  player_color : String
  move_san : String
  position_fen : String
  eval_drop : Int
  best_move_san : String
  coach_comment : PyScalar
  motif : PyScalar
  severity : PyScalar
deriving DecidableEq

/-- The signed evaluation drop (src/coach.py:198-202,
src/core/analysis.py:279-283): `before - after` when White moved,
`after - before` otherwise. -/
def evalDrop (playerColor : String) (before after : Int) : Int :=
  if playerColor = "White" then before - after else after - before

/-- The side-filter condition of the blunder gate:
side equals "both", or side lowercased equals the mover color lowercased. -/
def sideMatches (side color : String) : Bool :=
  side == "both" || pyLower side == pyLower color

/-- One iteration of the walk body for the half-move `m` from state `st`:
compute the drop, skip entirely if the post-move position is terminal,
otherwise apply the side/threshold gate and, on a qualifying move, invoke
the advisor and construct the record handed to the store. -/
def stepRecord (threshold : Int) (side pgnPath : String) (st : WalkState)
    (m : HalfMove) : Option BlunderRecord :=
  let playerColor := if st.turnWhite then "White" else "Black"
  let evalBefore := get_centipawns m.evalBefore
  let evalAfter := get_centipawns m.evalAfter
  let drop := evalDrop playerColor evalBefore evalAfter
  if m.gameOverAfter then none
  else if sideMatches side playerColor && decide (drop > threshold) then
    let a := get_llm_analysis m.advisor
    some { pgn_path := pgnPath
           move_number := st.fullmove
           player_color := playerColor
           move_san := m.moveSan
           position_fen := m.fenBefore
           eval_drop := drop
           best_move_san := m.bestMoveSan
           coach_comment := a.2.2
           motif := a.1
           severity := a.2.1 }
  else none

/-- The walk over the remaining half-moves from a given threaded state,
under a store whose append returns — the intended semantics of the loop
body (per the spec, persistence failures are swallowed inside the
recorder): it collects, in traversal order, every record the walker would
hand to the store. The program as written does NOT behave like this past
the first handed record: each handing raises `TypeError` (the binding bug
recorded in C1), so the run of the actual code is `walkAbortAux` below,
which is related to this walk by `walkAbortAux_eq_take`. -/
def walkAux (threshold : Int) (side pgnPath : String) :
    WalkState → List HalfMove → List BlunderRecord
  | _, [] => []
  | st, m :: rest =>
    match stepRecord threshold side pgnPath st m with
    | some r => r :: walkAux threshold side pgnPath (pushState st) rest
    | none => walkAux threshold side pgnPath (pushState st) rest

/-- The walk as the program actually runs: when a qualifying move produces
a record, the record is constructed and handed to the store, and the
`db.save_blunder(...)` call raises `TypeError` (unexpected keyword
arguments `motif`/`severity`, missing `mistake_tag` — see C1), which
nothing upstream catches, so the walk terminates there. The result lists
the records actually handed before the abort: exactly the first record of
the intended walk, if any. -/
def walkAbortAux (threshold : Int) (side pgnPath : String) :
    WalkState → List HalfMove → List BlunderRecord
  | _, [] => []
  | st, m :: rest =>
    match stepRecord threshold side pgnPath st m with
    | some r => [r]
    | none => walkAbortAux threshold side pgnPath (pushState st) rest

/-- Model of `analyze_game` under the intended store semantics: walk the
mainline of a game starting from the standard initial state (White to
move, fullmove number 1), collecting every record handed to the store. -/
def analyze_game (threshold : Int) (side pgnPath : String)
    (moves : List HalfMove) : List BlunderRecord :=
  walkAux threshold side pgnPath ⟨true, 1⟩ moves

/-- The actual run of `analyze_game` on the code as written: the same walk
but aborting at the first handed record (see `walkAbortAux`). -/
def analyze_game_aborting (threshold : Int) (side pgnPath : String)
    (moves : List HalfMove) : List BlunderRecord :=
  walkAbortAux threshold side pgnPath ⟨true, 1⟩ moves

/-! ## The store (`src/database.py`) -/

/-- The parameters of `Database.save_blunder` (src/database.py:68), `self`
excluded; none of them has a default value. -/
def saveBlunderParams : List String :=
  ["pgn_path", "move_number", "player_color", "move_san", "position_fen",
   "eval_drop", "best_move_san", "coach_comment", "mistake_tag"]

/-- The keyword arguments passed to `db.save_blunder` by `analyze_game`
(src/coach.py:250-261) and by `GameProcessor._handle_blunder`
(src/core/analysis.py:385-396) — both call sites pass exactly these. -/
def handleBlunderCallKwargs : List String :=
  ["pgn_path", "move_number", "player_color", "move_san", "position_fen",
   "eval_drop", "best_move_san", "coach_comment", "motif", "severity"]

/-- Python keyword-argument binding for a call that passes keywords only, to
a function without `**kwargs` and without parameter defaults: the call binds
(and the body runs) iff every keyword names a parameter and every parameter
receives a value; otherwise the call raises `TypeError` before the body of
the callee — and hence before any `try` block inside it — executes. -/
def kwargsBindOk (params kwargs : List String) : Bool :=
  kwargs.all (fun k => params.contains k) && params.all (fun p => kwargs.contains p)

/-- Modelled from the spec: the Store `queryBySource` contract implemented
by `Database.get_blunders_by_pgn_path` (src/database.py:85-97) via
`SELECT * FROM blunders WHERE game_pgn_path = ? ORDER BY move_number ASC`.
SQL `ORDER BY` semantics constrain the result to be some reordering of the
matching rows that is ascending in the named column; with no secondary sort
key, the relative order of rows with equal `move_number` is not specified.
`queryBySource rows path res` holds iff `res` is an admissible result of the
query over inserted rows `rows`. -/
def queryBySource (rows : List BlunderRecord) (path : String)
    (res : List BlunderRecord) : Prop :=
  res.Perm (rows.filter fun r => r.pgn_path == path) ∧
    res.Pairwise fun a b => a.move_number ≤ b.move_number

/-- Holds (`true`) iff the character list contains no run of three consecutive
backticks (no occurrence of the plain code-fence marker). -/
def noFence : List Char → Bool
  | c1 :: c2 :: c3 :: rest =>
    !(c1 = btick && c2 = btick && c3 = btick) && noFence (c2 :: c3 :: rest)
  | _ => true

/-- The (motif, severity, explanation) triple obtained from a raw response
content string: fence-cleaning followed by parsing, i.e. the post-transport
part of the adapter. -/
def adviceOfContent (raw : String) : PyScalar × PyScalar × PyScalar :=
  parseAnalysisContent (cleanContent raw.data)

/-! ## Concrete sample inputs (used to instantiate theorems on closed data) -/

/-- A White half-move with a large centipawn drop (500 → −600, drop 1100)
whose advisor transport call fails with a timeout-style error. -/
def mSample : HalfMove :=
  ⟨⟨"cp", 500⟩, ⟨"cp", -600⟩, false, "Qxb7", "fen1", "Nf3", .error "t"⟩

/-- The record the walk constructs for `mSample` as the first half-move. -/
def rSample : BlunderRecord :=
  ⟨"g.pgn", 1, "White", "Qxb7", "fen1", 1100, "Nf3",
   .str "Error getting analysis from Ollama: t", .str "Error", .str "Error"⟩

/-- A Black half-move with a large drop (50 → 1000, drop 950). -/
def mBSample : HalfMove :=
  ⟨⟨"cp", 50⟩, ⟨"cp", 1000⟩, false, "Nf6", "fenB", "g6", .error "u"⟩

/-- The record the walk constructs for `mBSample` as the second half-move. -/
def rBSample : BlunderRecord :=
  ⟨"g.pgn", 1, "Black", "Nf6", "fenB", 950, "g6",
   .str "Error getting analysis from Ollama: u", .str "Error", .str "Error"⟩

/-- A game-ending half-move (post-move position terminal) with a huge drop. -/
def mTerminal : HalfMove :=
  ⟨⟨"cp", 500⟩, ⟨"cp", -600⟩, true, "Qh7", "fen2", "Nf3", .error "t"⟩

/-- A quiet White half-move (no qualifying drop). -/
def mQuiet : HalfMove :=
  ⟨⟨"cp", 20⟩, ⟨"cp", 15⟩, false, "e4", "fen0", "d4", .error "v"⟩

/-- A stored White record on full move 3 (for the query-order statements). -/
def rWhite3 : BlunderRecord :=
  ⟨"g.pgn", 3, "White", "Bc4", "fenW3", 200, "d4", .str "w", .str "Pin", .str "Blunder"⟩

/-- A stored Black record on full move 3. -/
def rBlack3 : BlunderRecord :=
  ⟨"g.pgn", 3, "Black", "Nf6", "fenB3", 950, "g6", .str "b", .str "Fork", .str "Blunder"⟩

/-! # Theorems -/

/-! ## Helper lemmas about the walk -/

/-- Destructing a successful gate step: the facts recorded by construction
of the record in the Investigating branch. -/
theorem stepRecord_some {th : Int} {side p : String} {st : WalkState}
    {m : HalfMove} {r : BlunderRecord}
    (h : stepRecord th side p st m = some r) :
    m.gameOverAfter = false ∧
    r.player_color = (if st.turnWhite then "White" else "Black") ∧
    sideMatches side r.player_color = true ∧
    th < r.eval_drop ∧
    r.move_number = st.fullmove ∧
    r.eval_drop = evalDrop r.player_color
      (get_centipawns m.evalBefore) (get_centipawns m.evalAfter) ∧
    r.pgn_path = p := by
  unfold stepRecord at h
  by_cases hgo : m.gameOverAfter
  · simp [hgo] at h
  · simp only [hgo, if_false, Bool.false_eq_true] at h
    by_cases hgate :
        (sideMatches side (if st.turnWhite then "White" else "Black") &&
          decide (evalDrop (if st.turnWhite then "White" else "Black")
            (get_centipawns m.evalBefore) (get_centipawns m.evalAfter) > th)) = true
    · rw [if_pos hgate] at h
      rw [Bool.and_eq_true] at hgate
      obtain ⟨hside, hdrop⟩ := hgate
      cases h
      refine ⟨by simpa using hgo, rfl, hside, of_decide_eq_true hdrop, rfl, rfl, rfl⟩
    · rw [if_neg hgate] at h
      exact absurd h (by simp)

/-- A record in the walk output comes from a successful step on one of the
half-moves. -/
theorem mem_walkAux {th : Int} {side p : String} {r : BlunderRecord} :
    ∀ {st : WalkState} {ms : List HalfMove}, r ∈ walkAux th side p st ms →
      ∃ st' m, m ∈ ms ∧ stepRecord th side p st' m = some r := by
  intro st ms
  induction ms generalizing st with
  | nil => intro h; simp [walkAux] at h
  | cons m rest ih =>
    intro h
    unfold walkAux at h
    cases hstep : stepRecord th side p st m with
    | some r' =>
      rw [hstep] at h
      rcases List.mem_cons.mp h with hr | hr
      · exact ⟨st, m, List.mem_cons_self .., by rw [hstep, hr]⟩
      · obtain ⟨st', m', hm', hs'⟩ := ih hr
        exact ⟨st', m', List.mem_cons_of_mem _ hm', hs'⟩
    | none =>
      rw [hstep] at h
      obtain ⟨st', m', hm', hs'⟩ := ih h
      exact ⟨st', m', List.mem_cons_of_mem _ hm', hs'⟩

/-- The aborting walk of the program as written hands exactly the first
record of the intended walk: handing a record raises the save-call
`TypeError` of C1 and stops the traversal. -/
theorem walkAbortAux_eq_take (th : Int) (side p : String) :
    ∀ (ms : List HalfMove) (st : WalkState),
      walkAbortAux th side p st ms = (walkAux th side p st ms).take 1 := by
  intro ms
  induction ms with
  | nil => intro st; rfl
  | cons m rest ih =>
    intro st
    unfold walkAbortAux walkAux
    cases hstep : stepRecord th side p st m with
    | some r => simp
    | none => simp [ih (pushState st)]

/-- Every record the aborting run hands to the store is among the records
of the intended walk, so universal properties of intended-walk records
carry over to the records the program actually hands. -/
theorem mem_of_mem_walkAbortAux {th : Int} {side p : String} {st : WalkState}
    {ms : List HalfMove} {r : BlunderRecord}
    (h : r ∈ walkAbortAux th side p st ms) : r ∈ walkAux th side p st ms := by
  rw [walkAbortAux_eq_take] at h
  exact List.take_subset 1 _ h

/-! ## C1 — persistence failures and the walk -/

/-- C1: the claim fails on the code. Both call sites hand the record to the
store with keyword arguments `motif` and `severity`, which
`Database.save_blunder` does not accept, and omit its required
`mistake_tag` parameter; Python keyword binding therefore fails, raising
`TypeError` at the call site — before the internal
`try/except sqlite3.Error` of `save_blunder` can run — and nothing in `analyze_game` or
`_handle_blunder` catches it, so the walk aborts on the first qualifying
blunder instead of continuing. -/
theorem c1_save_call_never_binds :
    kwargsBindOk saveBlunderParams handleBlunderCallKwargs = false ∧
    handleBlunderCallKwargs.contains "motif" = true ∧
    saveBlunderParams.contains "motif" = false ∧
    handleBlunderCallKwargs.contains "severity" = true ∧
    saveBlunderParams.contains "severity" = false ∧
    saveBlunderParams.contains "mistake_tag" = true ∧
    handleBlunderCallKwargs.contains "mistake_tag" = false := by decide

/-! ## C2 — the two score normalizers -/

/-- C2 counterexample: the claim says both normalizer implementations return
0 for an unknown score kind; the `StockfishAnalyzer` implementation returns
Python `None` instead (while the `coach.py` implementation does return 0),
so the claim fails on the core implementation. -/
theorem c2_core_normalizer_returns_none :
    get_centipawns ⟨"score", 7⟩ = 0 ∧
    StockfishAnalyzer.get_centipawns ⟨"score", 7⟩ = none ∧
    StockfishAnalyzer.get_centipawns ⟨"score", 7⟩ ≠ some 0 := by decide

/-- C2 (amended): for every raw evaluation, both normalizers pass centipawn
values through unchanged and map forced-mate values to ±30000 with the sign
taken from the raw value, never raising; for any other kind the `coach.py`
normalizer returns 0 while the `StockfishAnalyzer` normalizer returns
`None`. -/
theorem c2_normalizers (e : EvalDict) :
    (e.type = "cp" →
      get_centipawns e = e.value ∧
      StockfishAnalyzer.get_centipawns e = some e.value) ∧
    (e.type = "mate" →
      get_centipawns e = (if e.value < 0 then -30000 else 30000) ∧
      StockfishAnalyzer.get_centipawns e =
        some (if e.value < 0 then -30000 else 30000)) ∧
    (e.type ≠ "cp" → e.type ≠ "mate" →
      get_centipawns e = 0 ∧
      StockfishAnalyzer.get_centipawns e = none) := by
  refine ⟨fun h => ?_, fun h => ?_, fun h1 h2 => ?_⟩
  · simp [get_centipawns, StockfishAnalyzer.get_centipawns, h]
  · simp [get_centipawns, StockfishAnalyzer.get_centipawns, h]
  · simp [get_centipawns, StockfishAnalyzer.get_centipawns, h1, h2]

/-- C2 witness: the amended theorem applied to a concrete mate evaluation. -/
theorem c2_normalizers_witness :
    get_centipawns ⟨"mate", -2⟩ = (if (-2 : Int) < 0 then -30000 else 30000) ∧
    StockfishAnalyzer.get_centipawns ⟨"mate", -2⟩ =
      some (if (-2 : Int) < 0 then -30000 else 30000) :=
  (c2_normalizers ⟨"mate", -2⟩).2.1 rfl

/-! ## C3 — the sign convention of the evaluation drop -/

/-- C3: the drop is `before − after` for a White mover and `after − before`
for a Black mover, so a move that worsens the objective position of the mover
(score falls for White; score rises for Black) always yields a positive
drop; and the drop stored in every record produced by the walk is exactly
this quantity for the color of the mover. -/
theorem c3_drop_sign_convention :
    (∀ before after : Int, evalDrop "White" before after = before - after) ∧
    (∀ before after : Int, evalDrop "Black" before after = after - before) ∧
    (∀ before after : Int, after < before → 0 < evalDrop "White" before after) ∧
    (∀ before after : Int, before < after → 0 < evalDrop "Black" before after) ∧
    (∀ (th : Int) (side p : String) (st : WalkState) (m : HalfMove)
       (r : BlunderRecord), stepRecord th side p st m = some r →
         r.eval_drop = evalDrop r.player_color
           (get_centipawns m.evalBefore) (get_centipawns m.evalAfter)) := by
  refine ⟨fun b a => ?_, fun b a => ?_, fun b a h => ?_, fun b a h => ?_,
    fun th side p st m r h => (stepRecord_some h).2.2.2.2.2.1⟩
  · simp [evalDrop]
  · simp [evalDrop]
  · simp [evalDrop]; omega
  · simp [evalDrop]; omega

/-- C3 witness: the convention applied to a concrete worsening Black move
(score 50 before, 1000 after, drop 950 > 0). -/
theorem c3_drop_sign_convention_witness :
    (0 : Int) < evalDrop "Black" 50 1000 :=
  c3_drop_sign_convention.2.2.2.1 50 1000 (by decide)

/-! ## C4 — invariants of created records -/

/-- C4: every record created during a walk has an evaluation drop strictly
above the configured threshold and a mover color matching the requested
scope, and (for any non-negative threshold, which includes the configured
default of 150) a non-negative evaluation drop; a record is created only
when both gate conditions hold. -/
theorem c4_record_invariants (th : Int) (side p : String)
    (ms : List HalfMove) (r : BlunderRecord) (hth : 0 ≤ th)
    (hr : r ∈ analyze_game th side p ms) :
    th < r.eval_drop ∧ sideMatches side r.player_color = true ∧
      0 ≤ r.eval_drop := by
  obtain ⟨st', m, _, hs⟩ := mem_walkAux hr
  obtain ⟨-, -, hside, hdrop, -, -, -⟩ := stepRecord_some hs
  exact ⟨hdrop, hside, le_trans hth (le_of_lt hdrop)⟩

/-- C4 witness: the invariants instantiated on a one-move game whose only
half-move is a 1100-centipawn White blunder at threshold 150. -/
theorem c4_record_invariants_witness :
    (150 : Int) < rSample.eval_drop ∧
      sideMatches "both" rSample.player_color = true ∧
      (0 : Int) ≤ rSample.eval_drop :=
  c4_record_invariants 150 "both" "g.pgn" [mSample] rSample
    (by decide) (by decide)

/-! ## C5 — the failure behavior of the Advisor adapter -/

/-- C5 counterexample: the content `[]` cannot be parsed as the expected
structured object, yet the adapter does not return
`("Uncategorized", "Error", rawContent)`: the decoded value is a list, the
`.get` call on it raises `AttributeError`, which the inner
`except (json.JSONDecodeError, KeyError)` does not catch, so the generic
handler produces `("Error", "Error", diagnostic)` instead. -/
theorem c5_nonobject_counterexample :
    get_llm_analysis (.ok "[]") =
      (.str "Error", .str "Error",
       .str "Error getting analysis from Ollama: 'list' object has no attribute 'get'") ∧
    get_llm_analysis (.ok "[]") ≠
      (.str "Uncategorized", .str "Error", .str "[]") := by decide

/-- Destructing a successful gate step on a half-move whose advisor
transport call fails: the Investigating step completes anyway and the
constructed record carries the degraded triple. -/
theorem stepRecord_advisor_error {th : Int} {side p : String} {st : WalkState}
    {m : HalfMove} {e : String} {r : BlunderRecord}
    (hadv : m.advisor = .error e)
    (h : stepRecord th side p st m = some r) :
    r.motif = .str "Error" ∧ r.severity = .str "Error" ∧
      r.coach_comment = .str ("Error getting analysis from Ollama: " ++ e) := by
  unfold stepRecord at h
  by_cases hgo : m.gameOverAfter
  · simp [hgo] at h
  · simp only [hgo, Bool.false_eq_true, if_false] at h
    by_cases hgate :
        (sideMatches side (if st.turnWhite then "White" else "Black") &&
          decide (evalDrop (if st.turnWhite then "White" else "Black")
            (get_centipawns m.evalBefore) (get_centipawns m.evalAfter) > th)) = true
    · rw [if_pos hgate] at h
      cases h
      simp [hadv, get_llm_analysis]
    · rw [if_neg hgate] at h
      exact absurd h (by simp)

/-- C5 (amended): the adapter never raises out of its analysis call. A
transport-level error yields `("Error", "Error", diagnosticMessage)`.
Content that is not valid JSON at all yields
`("Uncategorized", "Error", content)` with the fence-stripped content text
as the explanation. Content that is valid JSON but not an object escapes
the inner parse handler as an `AttributeError` and is converted by the
generic handler to `("Error", "Error", diagnosticMessage)`. The
Investigating step therefore completes even on a transport failure, and
the record it constructs carries the degraded triple; but the walk does
NOT then proceed to subsequent half-moves: handing that record to the
store raises the `TypeError` of C1, so the run of the program hands
exactly the first record of the intended walk (at most one record). -/
theorem c5_adapter_failure_modes :
    (∀ e : String, get_llm_analysis (.error e) =
      (.str "Error", .str "Error",
       .str ("Error getting analysis from Ollama: " ++ e))) ∧
    (∀ raw : String, pyJsonLoads (cleanContent raw.data) = none →
      get_llm_analysis (.ok raw) =
        (.str "Uncategorized", .str "Error",
         .str (String.mk (cleanContent raw.data)))) ∧
    (∀ (raw : String) (v : PyVal),
      pyJsonLoads (cleanContent raw.data) = some v →
      (∀ fields, v ≠ PyVal.obj fields) →
      get_llm_analysis (.ok raw) =
        (.str "Error", .str "Error", .str (attrErrorMsg v))) ∧
    (∀ (th : Int) (side p : String) (st : WalkState) (m : HalfMove)
       (e : String) (r : BlunderRecord), m.advisor = .error e →
      stepRecord th side p st m = some r →
        r.motif = .str "Error" ∧ r.severity = .str "Error" ∧
          r.coach_comment = .str ("Error getting analysis from Ollama: " ++ e)) ∧
    (∀ (th : Int) (side p : String) (st : WalkState) (ms : List HalfMove),
      walkAbortAux th side p st ms = (walkAux th side p st ms).take 1 ∧
        (walkAbortAux th side p st ms).length ≤ 1) := by
  refine ⟨fun e => rfl, fun raw h => ?_, fun raw v h hno => ?_,
    fun th side p st m e r hadv h => stepRecord_advisor_error hadv h,
    fun th side p st ms => ⟨walkAbortAux_eq_take th side p ms st, ?_⟩⟩
  · simp [get_llm_analysis, parseAnalysisContent, h]
  · cases v with
    | obj fields => exact absurd rfl (hno fields)
    | scalar s => simp [get_llm_analysis, parseAnalysisContent, h]
    | arr l => simp [get_llm_analysis, parseAnalysisContent, h]
  · rw [walkAbortAux_eq_take th side p ms st]
    exact List.length_take_le 1 _

/-- C5 witness: the amended theorem applied to concrete unparsable content. -/
theorem c5_adapter_failure_modes_witness :
    get_llm_analysis (.ok "not json") =
      (.str "Uncategorized", .str "Error",
       .str (String.mk (cleanContent "not json".data))) :=
  c5_adapter_failure_modes.2.1 "not json" (by decide)

/-! ## C7 — terminal moves are never flagged -/

/-- C7: a half-move whose post-move position is terminal is skipped
entirely before the blunder gate, whatever its evaluation drop, and every
record the walk produces comes from a half-move whose post-move position
was not terminal. -/
theorem c7_terminal_never_flagged :
    (∀ (th : Int) (side p : String) (st : WalkState) (m : HalfMove),
      m.gameOverAfter = true → stepRecord th side p st m = none) ∧
    (∀ (th : Int) (side p : String) (st : WalkState) (ms : List HalfMove)
       (r : BlunderRecord), r ∈ walkAux th side p st ms →
        ∃ st' m, m ∈ ms ∧ m.gameOverAfter = false ∧
          stepRecord th side p st' m = some r) := by
  refine ⟨fun th side p st m h => by simp [stepRecord, h],
    fun th side p st ms r hr => ?_⟩
  obtain ⟨st', m, hm, hs⟩ := mem_walkAux hr
  exact ⟨st', m, hm, (stepRecord_some hs).1, hs⟩

/-- C7 witness: a game-ending half-move with a 1100-centipawn drop produces
no record. -/
theorem c7_terminal_never_flagged_witness :
    stepRecord 150 "both" "g.pgn" ⟨true, 1⟩ mTerminal = none :=
  c7_terminal_never_flagged.1 150 "both" "g.pgn" ⟨true, 1⟩ mTerminal (by decide)

/-! ## C9 — missed mates dominate any realistic threshold -/

/-- C9: when the pre-move evaluation is mate-type and the post-move
evaluation is an ordinary centipawn value `v`, the computed drop (for
either mover color) has magnitude at least `30000 − |v|`. -/
theorem c9_missed_mate_drop (pc : String) (eb ea : EvalDict)
    (hb : eb.type = "mate") (ha : ea.type = "cp") :
    (30000 : Int) - |ea.value| ≤
      |evalDrop pc (get_centipawns eb) (get_centipawns ea)| := by
  have hbv : get_centipawns eb = if eb.value < 0 then -30000 else 30000 := by
    simp [get_centipawns, hb]
  have hav : get_centipawns ea = ea.value := by
    simp [get_centipawns, ha]
  rw [hbv, hav]
  have habs : |evalDrop pc (if eb.value < 0 then (-30000 : Int) else 30000) ea.value| =
      |(if eb.value < 0 then (-30000 : Int) else 30000) - ea.value| := by
    unfold evalDrop
    split
    · rfl
    · rw [abs_sub_comm]
  rw [habs]
  have h30 : |(if eb.value < 0 then (-30000 : Int) else 30000)| = 30000 := by
    split <;> simp
  calc (30000 : Int) - |ea.value|
      = |(if eb.value < 0 then (-30000 : Int) else 30000)| - |ea.value| := by
        rw [h30]
    _ ≤ _ := abs_sub_abs_le_abs_sub _ _

/-- C9 witness: a missed mate (mate in 3) followed by a +500 centipawn
position gives a drop of magnitude at least 29500. -/
theorem c9_missed_mate_drop_witness :
    (30000 : Int) - |(EvalDict.mk "cp" 500).value| ≤
      |evalDrop "White" (get_centipawns ⟨"mate", 3⟩) (get_centipawns ⟨"cp", 500⟩)| :=
  c9_missed_mate_drop "White" ⟨"mate", 3⟩ ⟨"cp", 500⟩ rfl rfl

/-! ## C8 — side filters -/

/-- The `white`-filtered step agrees with the `both`-filtered step on White
half-moves and produces nothing on Black ones. -/
theorem stepRecord_white (th : Int) (p : String) (st : WalkState) (m : HalfMove) :
    stepRecord th "white" p st m =
      (if st.turnWhite then stepRecord th "both" p st m else none) := by
  have h1 : sideMatches "white" "White" = true := by decide
  have h2 : sideMatches "white" "Black" = false := by decide
  have h5 : sideMatches "both" "White" = true := by decide
  cases hT : st.turnWhite with
  | true => simp [stepRecord, hT, h1, h5]
  | false => simp [stepRecord, hT, h2, ite_self]

/-- The `black`-filtered step agrees with the `both`-filtered step on Black
half-moves and produces nothing on White ones. -/
theorem stepRecord_black (th : Int) (p : String) (st : WalkState) (m : HalfMove) :
    stepRecord th "black" p st m =
      (if st.turnWhite then none else stepRecord th "both" p st m) := by
  have h3 : sideMatches "black" "Black" = true := by decide
  have h4 : sideMatches "black" "White" = false := by decide
  have h6 : sideMatches "both" "Black" = true := by decide
  cases hT : st.turnWhite with
  | true => simp [stepRecord, hT, h4, ite_self]
  | false => simp [stepRecord, hT, h3, h6]

/-- Under the intended store semantics (the continuing walk `walkAux`), a
record of the `both` walk is a record of the `white` walk or of the
`black` walk over the same half-moves, and conversely. This is the
behavior the claim describes; the program as written breaks it by
aborting, see `c8_abort_breaks_union`. -/
theorem walkAux_both_iff (th : Int) (p : String) (r : BlunderRecord) :
    ∀ (ms : List HalfMove) (st : WalkState),
      r ∈ walkAux th "both" p st ms ↔
        r ∈ walkAux th "white" p st ms ∨ r ∈ walkAux th "black" p st ms := by
  intro ms
  induction ms with
  | nil => intro st; simp [walkAux]
  | cons m rest ih =>
    intro st
    have hw := stepRecord_white th p st m
    have hb := stepRecord_black th p st m
    cases hT : st.turnWhite with
    | true =>
      rw [hT] at hw hb
      simp only [if_true] at hw hb
      unfold walkAux
      rw [hw, hb]
      cases hs : stepRecord th "both" p st m with
      | some r' => simp [List.mem_cons, ih (pushState st), or_assoc]
      | none => simp [ih (pushState st)]
    | false =>
      rw [hT] at hw hb
      simp only [if_false, Bool.false_eq_true] at hw hb
      unfold walkAux
      rw [hw, hb]
      cases hs : stepRecord th "both" p st m with
      | some r' =>
        simp only [List.mem_cons, ih (pushState st)]
        tauto
      | none => simp [ih (pushState st)]

/-- Records of a single-side walk carry the color of that side (stated
for the continuing walk; by `mem_of_mem_walkAbortAux` it covers every
record the aborting run hands as well). -/
theorem walkAux_side_color (th : Int) (p : String) (st : WalkState)
    (ms : List HalfMove) (r : BlunderRecord) :
    (r ∈ walkAux th "white" p st ms → r.player_color = "White") ∧
    (r ∈ walkAux th "black" p st ms → r.player_color = "Black") := by
  constructor
  · intro hr
    obtain ⟨st', m, -, hs⟩ := mem_walkAux hr
    obtain ⟨-, hpc, hside, -⟩ := stepRecord_some hs
    cases hT : st'.turnWhite with
    | true => rw [hT] at hpc; simpa using hpc
    | false =>
      rw [hT] at hpc
      simp only [Bool.false_eq_true, if_false] at hpc
      rw [hpc] at hside
      exact absurd hside (by decide)
  · intro hr
    obtain ⟨st', m, -, hs⟩ := mem_walkAux hr
    obtain ⟨-, hpc, hside, -⟩ := stepRecord_some hs
    cases hT : st'.turnWhite with
    | true =>
      rw [hT] at hpc
      simp only [if_true] at hpc
      rw [hpc] at hside
      exact absurd hside (by decide)
    | false => rw [hT] at hpc; simpa using hpc

/-- C8: the claimed union equality fails on the code as written (it holds
only under the intended store semantics, `walkAux_both_iff` above). On a
game with a White qualifying blunder followed by a Black qualifying
blunder, the `both` run hands the White record to the store, the save call
raises the `TypeError` of C1, and the walk aborts before reaching the
Black blunder: the actual runs give `both = [rSample]`,
`white = [rSample]`, `black = [rBSample]`, so the Black record belongs to
the union of the single-side runs but not to the `both` run. This theorem
evaluates the code (the aborting walk) at that failing input. -/
theorem c8_abort_breaks_union :
    analyze_game_aborting 150 "both" "g.pgn" [mSample, mBSample] = [rSample] ∧
    analyze_game_aborting 150 "white" "g.pgn" [mSample, mBSample] = [rSample] ∧
    analyze_game_aborting 150 "black" "g.pgn" [mSample, mBSample] = [rBSample] ∧
    rBSample ∈ analyze_game_aborting 150 "black" "g.pgn" [mSample, mBSample] ∧
    rBSample ∉ analyze_game_aborting 150 "both" "g.pgn" [mSample, mBSample] := by
  decide

/-! ## C10 — move indices and retrieval order -/

/-- C10: the move index stored in a record is the full-move number of the
position before the move; a White half-move and the Black reply inside the
same full move receive the same index; an admissible query result is
ascending in that index; and the query contract does not determine the
relative order of a White/Black pair sharing a full-move number (both
orders are admissible results over the same rows). -/
theorem c10_move_index_and_query_order :
    (∀ (th : Int) (side p : String) (st : WalkState) (m : HalfMove)
       (r : BlunderRecord), stepRecord th side p st m = some r →
        r.move_number = st.fullmove) ∧
    (∀ (th : Int) (side p : String) (st : WalkState) (m₁ m₂ : HalfMove)
       (r₁ r₂ : BlunderRecord), st.turnWhite = true →
        stepRecord th side p st m₁ = some r₁ →
        stepRecord th side p (pushState st) m₂ = some r₂ →
        r₁.move_number = r₂.move_number) ∧
    (∀ (rows : List BlunderRecord) (path : String) (res : List BlunderRecord),
      queryBySource rows path res →
        res.Pairwise fun a b => a.move_number ≤ b.move_number) ∧
    (∃ (rows : List BlunderRecord) (path : String)
       (r₁ r₂ : BlunderRecord),
        r₁.player_color = "White" ∧ r₂.player_color = "Black" ∧
        r₁.move_number = r₂.move_number ∧
        queryBySource rows path [r₁, r₂] ∧
        queryBySource rows path [r₂, r₁] ∧
        [r₁, r₂] ≠ [r₂, r₁]) := by
  refine ⟨fun th side p st m r h => (stepRecord_some h).2.2.2.2.1,
    fun th side p st m₁ m₂ r₁ r₂ hT h1 h2 => ?_, fun rows path res h => h.2, ?_⟩
  · have e1 := (stepRecord_some h1).2.2.2.2.1
    have e2 := (stepRecord_some h2).2.2.2.2.1
    rw [e1, e2]
    simp [pushState, hT]
  · refine ⟨[rWhite3, rBlack3], "g.pgn", rWhite3, rBlack3, rfl, rfl, rfl,
      ⟨by decide, by decide⟩, ⟨by decide, by decide⟩, by decide⟩

/-- C10 witness: the index rule applied to a concrete Black half-move
processed from a state with full-move number 1. -/
theorem c10_move_index_witness : rBSample.move_number = (1 : Nat) :=
  c10_move_index_and_query_order.1 150 "both" "g.pgn" ⟨false, 1⟩ mBSample
    rBSample (by decide)

/-! ## C6 — fence-stripping machinery -/

/-- The predicate `noFence` is preserved by dropping the head character. -/
theorem noFence_tail {c : Char} {xs : List Char} (h : noFence (c :: xs) = true) :
    noFence xs = true := by
  match xs with
  | [] => rfl
  | [d] => rfl
  | d :: e :: rest =>
    unfold noFence at h
    rw [Bool.and_eq_true] at h
    exact h.2

/-- While scanning a block with no fence marker and no trailing backtick,
the splitter for any pattern starting with three backticks consumes the
block without cutting. -/
theorem pySplitGo_scan (pat' : List Char) :
    ∀ (B : List Char), noFence B = true → B.getLast? ≠ some btick →
      ∀ (acc rest : List Char) (fuel : Nat), B.length ≤ fuel →
        pySplitGo (btick :: btick :: btick :: pat') fuel acc (B ++ rest) =
          pySplitGo (btick :: btick :: btick :: pat') (fuel - B.length) (acc ++ B) rest := by
  intro B
  induction B with
  | nil => intro _ _ acc rest fuel _; simp
  | cons c B' ih =>
    intro hNF hLast acc rest fuel hfuel
    obtain ⟨f, rfl⟩ : ∃ f, fuel = f + 1 := ⟨fuel - 1, by simp at hfuel; omega⟩
    have hpre : (btick :: btick :: btick :: pat').isPrefixOf (c :: (B' ++ rest)) = false := by
      by_cases hc : c = btick
      · subst hc
        cases B' with
        | nil => exact absurd (by decide) hLast
        | cons d B'' =>
          by_cases hd : d = btick
          · subst hd
            cases B'' with
            | nil => exact absurd (by decide) hLast
            | cons e B''' =>
              by_cases he : e = btick
              · subst he; simp [noFence] at hNF
              · have hbe : (btick == e) = false := beq_eq_false_iff_ne.mpr (Ne.symm he)
                simp [List.isPrefixOf, hbe]
          · have hbd : (btick == d) = false := beq_eq_false_iff_ne.mpr (Ne.symm hd)
            simp [List.isPrefixOf, hbd]
      · have hbc : (btick == c) = false := beq_eq_false_iff_ne.mpr (Ne.symm hc)
        simp [List.isPrefixOf, hbc]
    have hLast' : B'.getLast? ≠ some btick := by
      cases B' with
      | nil => simp
      | cons d B'' => rw [← List.getLast?_cons_cons (a := c)]; exact hLast
    have hf' : B'.length ≤ f := by simp at hfuel; omega
    have hstep : pySplitGo (btick :: btick :: btick :: pat') (f + 1) acc (c :: (B' ++ rest)) =
        pySplitGo (btick :: btick :: btick :: pat') f (acc ++ [c]) (B' ++ rest) := by
      simp [pySplitGo, hpre]
    have hlen : f + 1 - (c :: B').length = f - B'.length := by simp
    have hacc : acc ++ c :: B' = (acc ++ [c]) ++ B' := by simp
    rw [List.cons_append, hstep, hlen, hacc]
    exact ih (noFence_tail hNF) hLast' (acc ++ [c]) rest f hf'

/-- A block with no fence marker contains no pattern starting with three
backticks. -/
theorem containsSub_fence_false (pat' : List Char) :
    ∀ (B : List Char), noFence B = true →
      containsSub (btick :: btick :: btick :: pat') B = false := by
  intro B
  induction B with
  | nil => intro _; rfl
  | cons c B' ih =>
    intro hNF
    have htail := ih (noFence_tail hNF)
    have hpre : (btick :: btick :: btick :: pat').isPrefixOf (c :: B') = false := by
      by_cases hc : c = btick
      · subst hc
        cases B' with
        | nil => simp [List.isPrefixOf]
        | cons d B'' =>
          by_cases hd : d = btick
          · subst hd
            cases B'' with
            | nil => simp [List.isPrefixOf]
            | cons e B''' =>
              by_cases he : e = btick
              · subst he; simp [noFence] at hNF
              · have hbe : (btick == e) = false := beq_eq_false_iff_ne.mpr (Ne.symm he)
                simp [List.isPrefixOf, hbe]
          · have hbd : (btick == d) = false := beq_eq_false_iff_ne.mpr (Ne.symm hd)
            simp [List.isPrefixOf, hbd]
      · have hbc : (btick == c) = false := beq_eq_false_iff_ne.mpr (Ne.symm hc)
        simp [List.isPrefixOf, hbc]
    unfold containsSub
    rw [hpre, htail]
    rfl

/-- The tail of the fenced input stops the fence-json splitter: the three
closing backticks are not an occurrence of the 7-character marker. -/
theorem pySplitGo_fenceJson_stop (acc : List Char) (f : Nat) :
    pySplitGo (btick :: btick :: btick :: 'j' :: 's' :: 'o' :: 'n' :: []) (f + 4) acc
      [btick, btick, btick] = [acc ++ [btick, btick, btick]] := by
  simp [pySplitGo, List.isPrefixOf, List.append_assoc]

/-- The closing fence is found at once by the plain fence splitter. -/
theorem pySplitGo_fenceMarker_stop (acc : List Char) (f : Nat) :
    pySplitGo (btick :: btick :: btick :: []) (f + 3) acc [btick, btick, btick] =
      [acc, []] := by
  simp [pySplitGo, List.isPrefixOf]

/-- Splitting a fenced block on the fence-json marker yields the empty
prefix and the block followed by the closing fence. -/
theorem pySplit_fenceJson_fenced (B : List Char) (hNF : noFence B = true)
    (hLast : B.getLast? ≠ some btick) :
    pySplit fenceJson (fenceJson ++ B ++ fenceMarker) = [[], B ++ fenceMarker] := by
  have hfj : fenceJson = btick :: btick :: btick :: 'j' :: 's' :: 'o' :: 'n' :: [] := by
    decide
  have hfm : fenceMarker = [btick, btick, btick] := by decide
  unfold pySplit
  rw [hfj, hfm, List.append_assoc]
  have hlen : ((btick :: btick :: btick :: 'j' :: 's' :: 'o' :: 'n' :: []) ++
      (B ++ [btick, btick, btick])).length = B.length + 10 := by
    simp
  rw [hlen]
  have hhead : pySplitGo (btick :: btick :: btick :: 'j' :: 's' :: 'o' :: 'n' :: [])
      (B.length + 10) []
      ((btick :: btick :: btick :: 'j' :: 's' :: 'o' :: 'n' :: []) ++
        (B ++ [btick, btick, btick])) =
      [] :: pySplitGo (btick :: btick :: btick :: 'j' :: 's' :: 'o' :: 'n' :: [])
        (B.length + 9) [] (B ++ [btick, btick, btick]) := by
    simp [pySplitGo, List.isPrefixOf]
  rw [hhead]
  rw [pySplitGo_scan ['j', 's', 'o', 'n'] B hNF hLast [] [btick, btick, btick]
    (B.length + 9) (by omega)]
  have h9 : B.length + 9 - B.length = 5 + 4 := by omega
  rw [h9, List.nil_append, pySplitGo_fenceJson_stop]

/-- Splitting a fence-free block followed by the closing fence on the plain
fence marker cuts exactly at the closing fence. -/
theorem pySplit_fenceMarker_closing (B : List Char) (hNF : noFence B = true)
    (hLast : B.getLast? ≠ some btick) :
    pySplit fenceMarker (B ++ fenceMarker) = [B, []] := by
  have hfm : fenceMarker = [btick, btick, btick] := by decide
  unfold pySplit
  rw [hfm]
  have hlen : (B ++ [btick, btick, btick]).length = B.length + 3 := by simp
  rw [hlen]
  rw [pySplitGo_scan [] B hNF hLast [] [btick, btick, btick] (B.length + 3) (by omega)]
  have h3 : B.length + 3 - B.length = 0 + 3 := by omega
  rw [h3, List.nil_append, pySplitGo_fenceMarker_stop]

/-- The fence-json marker is found in any input that starts with it. -/
theorem containsSub_fenceJson_head (X : List Char) :
    containsSub fenceJson (fenceJson ++ X) = true := by
  have hfj : fenceJson = btick :: btick :: btick :: 'j' :: 's' :: 'o' :: 'n' :: [] := by
    decide
  rw [hfj]
  simp [containsSub, List.isPrefixOf]

/-- Cleaning a fenced fence-free block yields the stripped block. -/
theorem cleanContent_fenced (B : List Char) (hNF : noFence B = true)
    (hLast : B.getLast? ≠ some btick) :
    cleanContent (fenceJson ++ B ++ fenceMarker) = pyStripList B := by
  unfold cleanContent
  rw [List.append_assoc, containsSub_fenceJson_head]
  rw [← List.append_assoc, pySplit_fenceJson_fenced B hNF hLast]
  simp [pySplit_fenceMarker_closing B hNF hLast]

/-- Cleaning a block that does not contain the fence-json marker is just
stripping. -/
theorem cleanContent_nofence (B : List Char) (hNF : noFence B = true) :
    cleanContent B = pyStripList B := by
  have hfj : fenceJson = btick :: btick :: btick :: 'j' :: 's' :: 'o' :: 'n' :: [] := by
    decide
  have hc : containsSub fenceJson B = false := by
    rw [hfj]; exact containsSub_fence_false ['j', 's', 'o', 'n'] B hNF
  simp [cleanContent, hc]

/-- C6 (amended): for every Advisor response body that contains no
triple-backtick fence marker and does not end with a backtick, parsing the
body wrapped in code-fence markers yields exactly the same triple as
parsing it unfenced; and a key missing from a decoded object defaults to
its documented sentinel. -/
theorem c6_fence_invariance :
    (∀ body : String, noFence body.data = true →
      body.data.getLast? ≠ some btick →
      adviceOfContent ("```json" ++ body ++ "```") = adviceOfContent body) ∧
    (∀ (content : List Char) (fields : List (String × PyScalar)),
      pyJsonLoads content = some (.obj fields) →
      fields.reverse.lookup "motif" = none →
      (parseAnalysisContent content).1 = .str "Uncategorized") ∧
    (∀ (content : List Char) (fields : List (String × PyScalar)),
      pyJsonLoads content = some (.obj fields) →
      fields.reverse.lookup "severity" = none →
      (parseAnalysisContent content).2.1 = .str "Unknown") ∧
    (∀ (content : List Char) (fields : List (String × PyScalar)),
      pyJsonLoads content = some (.obj fields) →
      fields.reverse.lookup "explanation" = none →
      (parseAnalysisContent content).2.2 = .str "No explanation provided.") := by
  refine ⟨fun body hNF hLast => ?_, fun content fields h hl => ?_,
    fun content fields h hl => ?_, fun content fields h hl => ?_⟩
  · unfold adviceOfContent
    have hdata : ("```json" ++ body ++ "```").data =
        fenceJson ++ body.data ++ fenceMarker := by
      rw [String.data_append, String.data_append]; rfl
    rw [hdata, cleanContent_fenced body.data hNF hLast,
      cleanContent_nofence body.data hNF]
  · simp [parseAnalysisContent, h, pyDictGet, hl]
  · simp [parseAnalysisContent, h, pyDictGet, hl]
  · simp [parseAnalysisContent, h, pyDictGet, hl]

/-- C6 counterexample: a structured body whose explanation value contains a
fence marker parses to the full triple unfenced, but wrapped in fences it
is truncated at the inner marker and falls back to the degraded triple, so
the two parses differ. -/
theorem c6_counterexample :
    adviceOfContent
        ("```json" ++
         "\x7b\"motif\": \"Pin\", \"severity\": \"Blunder\", \"explanation\": \"a```b\"\x7d"
         ++ "```") =
      (.str "Uncategorized", .str "Error",
       .str "\x7b\"motif\": \"Pin\", \"severity\": \"Blunder\", \"explanation\": \"a") ∧
    adviceOfContent
        "\x7b\"motif\": \"Pin\", \"severity\": \"Blunder\", \"explanation\": \"a```b\"\x7d" =
      (.str "Pin", .str "Blunder", .str "a```b") ∧
    adviceOfContent
        ("```json" ++
         "\x7b\"motif\": \"Pin\", \"severity\": \"Blunder\", \"explanation\": \"a```b\"\x7d"
         ++ "```") ≠
      adviceOfContent
        "\x7b\"motif\": \"Pin\", \"severity\": \"Blunder\", \"explanation\": \"a```b\"\x7d" := by
  refine ⟨by decide, by decide, by decide⟩

/-- C6 witness: the amended theorem applied to a concrete fence-free body. -/
theorem c6_fence_invariance_witness :
    adviceOfContent ("```json" ++ "\x7b\"motif\": \"Pin\"\x7d" ++ "```") =
      adviceOfContent "\x7b\"motif\": \"Pin\"\x7d" :=
  c6_fence_invariance.1 "\x7b\"motif\": \"Pin\"\x7d" (by decide) (by decide)
